import Mathlib

/-!
Verification of the multi-tenant soundboard storage and playback layer.

Shallow embedding of the repository's core logic:
  * `sanitizeFileName`, `getServerFolderPrefix`, `objectKey` — key naming
    (src/utils/s3.ts);
  * the object-store gateway (`uploadFile`, `deleteFile`, `listFiles`,
    `fileExists`, `getFileInfo`, `renameFile`, `cleanupFiles`,
    `getBucketStats`, `getTotalStats`) over an explicit store state;
  * the settings store (`getServerSettings`, `createDefaultServerSettings`,
    `updateServerVolume`, `updateServerSettings`) over an explicit table
    state (src/utils/db.ts);
  * the playback coordinator's `playAudio` control flow
    (src/commands/audio/song.ts).

Strings are modelled as lists of characters (`Str`); JavaScript numbers
are modelled as rationals (the volume arithmetic in scope — clamping,
division by 100, comparison with the literal 0.5 — is exact in binary
floating point, so ℚ is a faithful model for these operations).
-/

namespace Soundboard

/-- Strings, modelled as lists of characters. -/
abbrev Str := List Char

/-- The character list of a string literal. -/
def str (s : String) : Str := s.data

/-! ## Key naming and sanitization (src/utils/s3.ts) -/

/-- One of the two path-separator characters removed by the sanitizer's
regular expression `/[\/\\]/g`. -/
def isPathSep (c : Char) : Bool := c == '/' || c == '\\'

/-- The canonical audio extension ".mp3". -/
def mp3Ext : Str := str ".mp3"

/-- `sanitizeFileName` from src/utils/s3.ts: drop every path separator,
then append ".mp3" unless the result already ends with it. -/
def sanitizeFileName (fileName : Str) : Str :=
  let sanitized := fileName.filter (fun c => !(isPathSep c))
  if mp3Ext.isSuffixOf sanitized then sanitized else sanitized ++ mp3Ext

theorem mp3Ext_no_sep : ∀ c ∈ mp3Ext, isPathSep c = false := by decide

theorem sanitize_no_sep (x : Str) : ∀ c ∈ sanitizeFileName x, isPathSep c = false := by
  intro c hc
  simp only [sanitizeFileName] at hc
  split at hc
  · exact (Bool.not_eq_true' _).mp (List.mem_filter.mp hc).2
  · rcases List.mem_append.mp hc with h | h
    · exact (Bool.not_eq_true' _).mp (List.mem_filter.mp h).2
    · exact mp3Ext_no_sep c h

theorem sanitize_ends_mp3 (x : Str) : mp3Ext <:+ sanitizeFileName x := by
  simp only [sanitizeFileName]
  split
  · exact List.isSuffixOf_iff_suffix.mp (by assumption)
  · exact List.suffix_append _ _

theorem sanitize_fix_of_clean (x : Str) (hsep : ∀ c ∈ x, isPathSep c = false)
    (hmp3 : mp3Ext <:+ x) : sanitizeFileName x = x := by
  have hfilter : x.filter (fun c => !(isPathSep c)) = x := by
    rw [List.filter_eq_self]
    intro a ha
    simp [hsep a ha]
  simp only [sanitizeFileName]
  rw [hfilter, if_pos (List.isSuffixOf_iff_suffix.mpr hmp3)]

theorem sanitize_idempotent (x : Str) :
    sanitizeFileName (sanitizeFileName x) = sanitizeFileName x :=
  sanitize_fix_of_clean _ (sanitize_no_sep x) (sanitize_ends_mp3 x)

/-- C4: sanitizeFileName is idempotent, its output never contains a path
separator ('/' or '\'), and its output always ends with ".mp3". -/
theorem sanitizeFileName_spec (x : Str) :
    sanitizeFileName (sanitizeFileName x) = sanitizeFileName x ∧
    (∀ c ∈ sanitizeFileName x, c ≠ '/' ∧ c ≠ '\\') ∧
    mp3Ext <:+ sanitizeFileName x := by
  refine ⟨sanitize_idempotent x, ?_, sanitize_ends_mp3 x⟩
  intro c hc
  have h := sanitize_no_sep x c hc
  unfold isPathSep at h
  constructor
  · intro h1; subst h1; simp at h
  · intro h1; subst h1; simp at h

/-! ## Tenant folder prefixes and object keys (src/utils/s3.ts) -/

/-- Configuration of the S3 service: the public base URL and the base
folder (the constructor normalizes `S3_FOLDER` to end with '/'). -/
structure S3Config where
  baseUrl : Str
  baseFolderPrefix : Str
deriving DecidableEq

/-- Normalization done in the S3Service constructor: the base folder
prefix always ends with '/'. -/
def mkBaseFolderPrefix (s3Folder : Str) : Str :=
  if (str "/").isSuffixOf s3Folder then s3Folder else s3Folder ++ str "/"

/-- `getServerFolderPrefix`: the tenant's folder, `{baseFolder}{serverId}/`. -/
def getServerFolderPrefix (cfg : S3Config) (serverId : Str) : Str :=
  cfg.baseFolderPrefix ++ serverId ++ str "/"

/-- The full S3 key every per-file operation computes:
`{folderPrefix}{sanitizedName}`. -/
def objectKey (cfg : S3Config) (serverId fileName : Str) : Str :=
  getServerFolderPrefix cfg serverId ++ sanitizeFileName fileName

/-- `getPublicUrl`: `{baseUrl}/{key}`. -/
def getPublicUrl (cfg : S3Config) (key : Str) : Str :=
  cfg.baseUrl ++ str "/" ++ key

theorem str_slash : str "/" = [ '/' ] := rfl

/-- Core of tenant isolation: when neither tenant id contains '/', a key
of the form `A ++ "/" ++ s` can only start with `B ++ "/"` if `A = B`. -/
theorem slashfree_prefix_eq {B : Str} :
    ∀ {A : Str} (s : Str), '/' ∉ A → '/' ∉ B →
      B ++ [ '/' ] <+: A ++ '/' :: s → A = B := by
  induction B with
  | nil =>
    intro A s hA _ h
    cases A with
    | nil => rfl
    | cons a A2 =>
      rw [List.nil_append, List.cons_append] at h
      have := (List.cons_prefix_cons.mp h).1
      exact absurd (this ▸ List.mem_cons_self a A2) hA
  | cons b B2 ih =>
    intro A s hA hB h
    cases A with
    | nil =>
      rw [List.cons_append, List.nil_append] at h
      have := (List.cons_prefix_cons.mp h).1
      exact absurd (this ▸ List.mem_cons_self b B2) hB
    | cons a A2 =>
      rw [List.cons_append, List.cons_append] at h
      have h1 := List.cons_prefix_cons.mp h
      have hA2 : '/' ∉ A2 := fun hm => hA (List.mem_cons_of_mem a hm)
      have hB2 : '/' ∉ B2 := fun hm => hB (List.mem_cons_of_mem b hm)
      rw [h1.1, ih s hA2 hB2 h1.2]

/-- A key under tenant A's folder is never under tenant B's folder when
the two (slash-free) tenant ids differ. -/
theorem tenant_folder_disjoint (cfg : S3Config) {A B : Str} (s : Str)
    (hA : '/' ∉ A) (hB : '/' ∉ B) (hAB : A ≠ B) :
    ¬ (getServerFolderPrefix cfg B <+: getServerFolderPrefix cfg A ++ s) := by
  intro h
  unfold getServerFolderPrefix at h
  rw [str_slash] at h
  simp only [List.append_assoc, List.singleton_append] at h
  rw [List.prefix_append_right_inj] at h
  exact hAB (slashfree_prefix_eq s hA hB h)

/-! ## The object store state

An S3 bucket is modelled as a list of objects with unique keys; the
provider-level commands (`PutObject`, `DeleteObject`, `HeadObject`,
`CopyObject`, `ListObjectsV2`) become pure functions over that list.
`CopyObject` fails when the source key is absent, and also when source and
destination coincide: S3 rejects a copy of an object onto itself with
`MetadataDirective: COPY` (the request changes nothing), and `renameFile`
always sends `MetadataDirective: 'COPY'`. -/

/-- One stored object: key, size in bytes, last-modified timestamp. -/
structure S3Object where
  key : Str
  size : Nat
  lastModified : Nat
deriving DecidableEq

/-- The bucket contents. -/
abbrev Store := List S3Object

/-- Errors surfaced by the provider in this model. -/
inductive S3Error where
  | notFound
  | invalidRequest
  | listFailed
deriving DecidableEq

/-- Remove every object stored at `k`. -/
def removeKey (st : Store) (k : Str) : Store :=
  st.filter (fun o => !(o.key == k))

/-- `PutObject`: store an object at `k`, replacing any previous one. -/
def putObject (st : Store) (k : Str) (size lastModified : Nat) : Store :=
  ⟨k, size, lastModified⟩ :: removeKey st k

/-- `HeadObject`: look up the object stored at `k`. -/
def headObject (st : Store) (k : Str) : Option S3Object :=
  st.find? (fun o => o.key == k)

/-- `DeleteObject`: idempotent removal. -/
def deleteObject (st : Store) (k : Str) : Store := removeKey st k

/-- `CopyObject` within the bucket: fails on a missing source, and on a
metadata-preserving copy of a key onto itself (AWS rejects it). -/
def copyObject (st : Store) (src dest : Str) (now : Nat) : Except S3Error Store :=
  match headObject st src with
  | none => .error .notFound
  | some o =>
      if src = dest then .error .invalidRequest
      else .ok (putObject st dest o.size now)

/-! ## The object store gateway (S3Service methods) -/

/-- The `AudioFile` interface of src/utils/s3.ts. -/
structure AudioFile where
  key : Str
  name : Str
  size : Nat
  lastModified : Nat
  url : Str
deriving DecidableEq

/-- Lexicographic comparison of character lists: the model of the
`localeCompare`-based sort in `listFiles`. -/
def strLe : Str → Str → Bool
  | [], _ => true
  | _ :: _, [] => false
  | a :: as, b :: bs => if a = b then strLe as bs else decide (a < b)

/-- Names compare by `strLe` on the `name` field. -/
def fileNameLe (a b : AudioFile) : Prop := strLe a.name b.name = true

instance : DecidableRel fileNameLe := fun a b => by
  unfold fileNameLe
  infer_instance

/-- The `AudioFile` built for one listed object: the name is the key with
the tenant folder removed (the listed key starts with the folder, so the
source's replace-first-occurrence is the same as dropping the folder). -/
def toAudioFile (cfg : S3Config) (serverId : Str) (o : S3Object) : AudioFile :=
  ⟨o.key, o.key.drop (getServerFolderPrefix cfg serverId).length, o.size,
    o.lastModified, getPublicUrl cfg o.key⟩

/-- `listFiles` on a reachable store: the provider returns the objects
under the tenant folder (the `Prefix` parameter of `ListObjectsV2`); the
service keeps the ".mp3" keys, maps them to `AudioFile` and sorts by
name. -/
def listFilesOk (cfg : S3Config) (st : Store) (serverId : Str) : List AudioFile :=
  List.insertionSort fileNameLe
    (((st.filter (fun o => (getServerFolderPrefix cfg serverId).isPrefixOf o.key)).filter
        (fun o => mp3Ext.isSuffixOf o.key)).map (toAudioFile cfg serverId))

theorem mem_listFilesOk {cfg : S3Config} {st : Store} {serverId : Str} {f : AudioFile} :
    f ∈ listFilesOk cfg st serverId ↔
      ∃ o ∈ st, (getServerFolderPrefix cfg serverId).isPrefixOf o.key = true ∧
        mp3Ext.isSuffixOf o.key = true ∧ toAudioFile cfg serverId o = f := by
  unfold listFilesOk
  rw [List.mem_insertionSort]
  simp only [List.mem_map, List.mem_filter]
  constructor
  · rintro ⟨o, ⟨⟨h1, h2⟩, h3⟩, h4⟩
    exact ⟨o, h1, h2, List.isSuffixOf_iff_suffix.mpr (List.isSuffixOf_iff_suffix.mp h3), h4⟩
  · rintro ⟨o, h1, h2, h3, h4⟩
    exact ⟨o, ⟨⟨h1, h2⟩, h3⟩, h4⟩

/-- `uploadFile`: write the object at the tenant-scoped key, return the
public URL and the new store. -/
def uploadFile (cfg : S3Config) (st : Store) (fileName : Str) (size : Nat)
    (serverId : Str) (now : Nat) : Str × Store :=
  let key := objectKey cfg serverId fileName
  (getPublicUrl cfg key, putObject st key size now)

/-- `deleteFile`: delete the object at the tenant-scoped key. -/
def deleteFile (cfg : S3Config) (st : Store) (fileName serverId : Str) : Store :=
  deleteObject st (objectKey cfg serverId fileName)

/-- `fileExists`: `HeadObject` on the tenant-scoped key; NotFound means
false. -/
def fileExists (cfg : S3Config) (st : Store) (fileName serverId : Str) : Bool :=
  (headObject st (objectKey cfg serverId fileName)).isSome

/-- `getFileInfo`: size and last-modified of the tenant-scoped key, or
none when absent. -/
def getFileInfo (cfg : S3Config) (st : Store) (fileName serverId : Str) :
    Option (Nat × Nat) :=
  (headObject st (objectKey cfg serverId fileName)).map (fun o => (o.size, o.lastModified))

/-- The key `getFileStream` reads (`GetObject` on the tenant-scoped key). -/
def getFileStreamKey (cfg : S3Config) (fileName serverId : Str) : Str :=
  objectKey cfg serverId fileName

/-- `getServerFileUrl`: public URL of the tenant-scoped key. -/
def getServerFileUrl (cfg : S3Config) (fileName serverId : Str) : Str :=
  getPublicUrl cfg (objectKey cfg serverId fileName)

/-- `renameFile`: copy to the new tenant-scoped key, then delete the old
one, and return the new public URL. -/
def renameFile (cfg : S3Config) (st : Store) (currentFileName newFileName serverId : Str)
    (now : Nat) : Except S3Error (Str × Store) :=
  let sourceKey := getServerFolderPrefix cfg serverId ++ sanitizeFileName currentFileName
  let destinationKey := getServerFolderPrefix cfg serverId ++ sanitizeFileName newFileName
  match copyObject st sourceKey destinationKey now with
  | .error e => .error e
  | .ok st1 => .ok (getPublicUrl cfg destinationKey, deleteObject st1 sourceKey)

theorem copyObject_ok {st : Store} {src dest : Str} {now : Nat} {st1 : Store}
    (h : copyObject st src dest now = .ok st1) :
    src ≠ dest ∧ ∃ o, headObject st src = some o ∧ st1 = putObject st dest o.size now := by
  unfold copyObject at h
  rcases hh : headObject st src with _ | o
  · rw [hh] at h; cases h
  · rw [hh] at h
    by_cases hsd : src = dest
    · simp only [hsd, if_pos] at h
      cases h
    · simp only [if_neg hsd] at h
      cases h
      exact ⟨hsd, o, rfl, rfl⟩

theorem renameFile_ok {cfg : S3Config} {st : Store} {oldName newName serverId : Str}
    {now : Nat} {url : Str} {st2 : Store}
    (h : renameFile cfg st oldName newName serverId now = .ok (url, st2)) :
    ∃ o, headObject st (getServerFolderPrefix cfg serverId ++ sanitizeFileName oldName)
        = some o ∧
      getServerFolderPrefix cfg serverId ++ sanitizeFileName oldName ≠
        getServerFolderPrefix cfg serverId ++ sanitizeFileName newName ∧
      url = getPublicUrl cfg (getServerFolderPrefix cfg serverId ++ sanitizeFileName newName) ∧
      st2 = deleteObject
        (putObject st (getServerFolderPrefix cfg serverId ++ sanitizeFileName newName)
          o.size now)
        (getServerFolderPrefix cfg serverId ++ sanitizeFileName oldName) := by
  simp only [renameFile] at h
  rcases hc : copyObject st (getServerFolderPrefix cfg serverId ++ sanitizeFileName oldName)
      (getServerFolderPrefix cfg serverId ++ sanitizeFileName newName) now with e | st1
  · rw [hc] at h; cases h
  · rw [hc] at h
    rcases copyObject_ok hc with ⟨hsd, o, hh, hst1⟩
    refine ⟨o, hh, hsd, ?_, ?_⟩
    · cases h; rfl
    · cases h; rw [hst1]

/-- The part of a store that lives under one tenant's folder. -/
def restrictTo (cfg : S3Config) (serverId : Str) (st : Store) : Store :=
  st.filter (fun o => (getServerFolderPrefix cfg serverId).isPrefixOf o.key)

theorem restrictTo_removeKey (cfg : S3Config) (B : Str) (st : Store) (k : Str)
    (h : ¬ (getServerFolderPrefix cfg B <+: k)) :
    restrictTo cfg B (removeKey st k) = restrictTo cfg B st := by
  unfold restrictTo removeKey
  rw [List.filter_filter]
  apply List.filter_congr
  intro o _
  by_cases hp : (getServerFolderPrefix cfg B).isPrefixOf o.key = true
  · have hk : (o.key == k) = false := by
      rw [beq_eq_false_iff_ne]
      intro he
      exact h (he ▸ List.isPrefixOf_iff_prefix.mp hp)
    simp [hp, hk]
  · simp [hp]

theorem restrictTo_putObject (cfg : S3Config) (B : Str) (st : Store) (k : Str)
    (size now : Nat) (h : ¬ (getServerFolderPrefix cfg B <+: k)) :
    restrictTo cfg B (putObject st k size now) = restrictTo cfg B st := by
  unfold putObject
  have hk : ((getServerFolderPrefix cfg B).isPrefixOf k) = false := by
    rw [Bool.eq_false_iff]
    intro hp
    exact h (List.isPrefixOf_iff_prefix.mp hp)
  calc restrictTo cfg B (⟨k, size, now⟩ :: removeKey st k)
      = restrictTo cfg B (removeKey st k) := by
        unfold restrictTo
        rw [List.filter_cons_of_neg]
        simp [hk]
    _ = restrictTo cfg B st := restrictTo_removeKey cfg B st k h

/-- C2: tenant isolation. For slash-free tenant ids A ≠ B, `listFiles(A)`
never returns an object whose key lies under B's folder; every per-file
operation invoked for A (upload, delete, exists, info, stream, rename)
addresses only keys of the form `{folder A}{sanitized name}`, never a key
under B's folder; and the mutating operations leave B's slice of the
store untouched. (Tenant ids are Discord guild ids, which never contain a
slash.) -/
theorem tenant_isolation (cfg : S3Config) (st : Store) (A B : Str)
    (hA : '/' ∉ A) (hB : '/' ∉ B) (hAB : A ≠ B) :
    (∀ f ∈ listFilesOk cfg st A, ¬ (getServerFolderPrefix cfg B <+: f.key)) ∧
    (∀ name, objectKey cfg A name = getServerFolderPrefix cfg A ++ sanitizeFileName name ∧
        ¬ (getServerFolderPrefix cfg B <+: objectKey cfg A name)) ∧
    (∀ fileName size now,
        restrictTo cfg B ((uploadFile cfg st fileName size A now).2) = restrictTo cfg B st) ∧
    (∀ fileName, restrictTo cfg B (deleteFile cfg st fileName A) = restrictTo cfg B st) ∧
    (∀ oldName newName now url st2,
        renameFile cfg st oldName newName A now = .ok (url, st2) →
        restrictTo cfg B st2 = restrictTo cfg B st) := by
  have hkey : ∀ name,
      ¬ (getServerFolderPrefix cfg B <+: getServerFolderPrefix cfg A ++ sanitizeFileName name) := by
    intro name
    exact tenant_folder_disjoint cfg (sanitizeFileName name) hA hB hAB
  refine ⟨?_, ?_, ?_, ?_, ?_⟩
  · intro f hf
    rcases mem_listFilesOk.mp hf with ⟨o, _, hpA, _, hfo⟩
    have hpre : getServerFolderPrefix cfg A <+: o.key := List.isPrefixOf_iff_prefix.mp hpA
    have hk : o.key = getServerFolderPrefix cfg A ++
        o.key.drop (getServerFolderPrefix cfg A).length :=
      (List.prefix_iff_eq_append.mp hpre).symm
    have hfk : f.key = o.key := by rw [← hfo]; rfl
    rw [hfk, hk]
    exact tenant_folder_disjoint cfg _ hA hB hAB
  · intro name
    exact ⟨rfl, hkey name⟩
  · intro fileName size now
    exact restrictTo_putObject cfg B st _ size now (hkey fileName)
  · intro fileName
    exact restrictTo_removeKey cfg B st _ (hkey fileName)
  · intro oldName newName now url st2 h
    rcases renameFile_ok h with ⟨o, _, _, _, hst2⟩
    rw [hst2]
    unfold deleteObject
    rw [restrictTo_removeKey cfg B _ _ (hkey oldName),
      restrictTo_putObject cfg B st _ o.size now (hkey newName)]

/-- Witness for C2 at concrete tenants "123" and "456". -/
theorem tenant_isolation_witness :
    ('/' ∉ str "123") ∧ ('/' ∉ str "456") ∧ str "123" ≠ str "456" ∧
    ¬ (getServerFolderPrefix ⟨ str "cdn", str "audio/"⟩ (str "456") <+:
        objectKey ⟨ str "cdn", str "audio/"⟩ (str "123") (str "a.mp3")) :=
  ⟨by decide, by decide, by decide,
    ((tenant_isolation ⟨ str "cdn", str "audio/"⟩ [] (str "123") (str "456")
        (by decide) (by decide) (by decide)).2.1 (str "a.mp3")).2⟩

theorem headObject_removeKey_self (st : Store) (k : Str) :
    headObject (removeKey st k) k = none := by
  unfold headObject removeKey
  rw [List.find?_eq_none]
  intro o ho
  have h := (List.mem_filter.mp ho).2
  simp only [Bool.not_eq_true'] at h
  simp [h]

theorem headObject_removeKey_other (st : Store) (k k2 : Str) (h : k ≠ k2) :
    headObject (removeKey st k2) k = headObject st k := by
  unfold headObject removeKey
  induction st with
  | nil => rfl
  | cons o st ih =>
    by_cases hk : o.key = k2
    · rw [List.filter_cons_of_neg (by simp [hk])]
      rw [ih]
      have : (o.key == k) = false := by
        rw [beq_eq_false_iff_ne]
        rw [hk]
        exact fun he => h he.symm
      rw [List.find?_cons_of_neg _ (by simp [this])]
    · rw [List.filter_cons_of_pos (by simp [hk])]
      by_cases hok : o.key = k
      · rw [List.find?_cons_of_pos _ (by simp [hok]),
          List.find?_cons_of_pos _ (by simp [hok])]
      · rw [List.find?_cons_of_neg _ (by simp [hok]),
          List.find?_cons_of_neg _ (by simp [hok])]
        exact ih

/-- C5: rename round-trip. `renameFile` is copy-then-delete (see its
definition), and when it succeeds the old name no longer exists, the new
name exists, and the size reported for the new name equals the size
reported for the old name before the rename. -/
theorem rename_roundtrip (cfg : S3Config) (st : Store) (oldName newName serverId : Str)
    (now : Nat) (url : Str) (st2 : Store)
    (h : renameFile cfg st oldName newName serverId now = .ok (url, st2)) :
    fileExists cfg st2 oldName serverId = false ∧
    fileExists cfg st2 newName serverId = true ∧
    (getFileInfo cfg st2 newName serverId).map Prod.fst =
      (getFileInfo cfg st oldName serverId).map Prod.fst := by
  rcases renameFile_ok h with ⟨o, hh, hsd, _, hst2⟩
  have hsrc : objectKey cfg serverId oldName =
      getServerFolderPrefix cfg serverId ++ sanitizeFileName oldName := rfl
  have hdest : objectKey cfg serverId newName =
      getServerFolderPrefix cfg serverId ++ sanitizeFileName newName := rfl
  have hnew : headObject st2 (objectKey cfg serverId newName) =
      some ⟨objectKey cfg serverId newName, o.size, now⟩ := by
    rw [hst2]
    unfold deleteObject
    rw [hdest, headObject_removeKey_other _ _ _ (fun he => hsd he.symm)]
    unfold putObject headObject
    exact List.find?_cons_of_pos _ (by simp)
  refine ⟨?_, ?_, ?_⟩
  · unfold fileExists
    rw [hsrc, hst2]
    unfold deleteObject
    rw [headObject_removeKey_self]
    rfl
  · unfold fileExists
    rw [hnew]
    rfl
  · unfold getFileInfo
    rw [hnew, hsrc, hh]
    rfl

/-- Witness for C5: renaming a 2000-byte object "a.mp3" of tenant "g" to
"b.mp3". -/
theorem rename_roundtrip_witness :
    fileExists ⟨ str "cdn", str "audio/"⟩ [⟨ str "audio/g/b.mp3", 2000, 7⟩]
        (str "a.mp3") (str "g") = false ∧
    fileExists ⟨ str "cdn", str "audio/"⟩ [⟨ str "audio/g/b.mp3", 2000, 7⟩]
        (str "b.mp3") (str "g") = true ∧
    (getFileInfo ⟨ str "cdn", str "audio/"⟩ [⟨ str "audio/g/b.mp3", 2000, 7⟩]
        (str "b.mp3") (str "g")).map Prod.fst =
      (getFileInfo ⟨ str "cdn", str "audio/"⟩ [⟨ str "audio/g/a.mp3", 2000, 5⟩]
        (str "a.mp3") (str "g")).map Prod.fst :=
  rename_roundtrip ⟨ str "cdn", str "audio/"⟩ [⟨ str "audio/g/a.mp3", 2000, 5⟩]
    (str "a.mp3") (str "b.mp3") (str "g") 7 (str "cdn/audio/g/b.mp3")
    [⟨ str "audio/g/b.mp3", 2000, 7⟩] rfl

/-! ## Listing environment, cleanup and statistics

The network can make any tenant's `ListObjectsV2` call fail; `S3Env`
carries the store together with the set of tenants whose listing fails,
and the provider's `CommonPrefixes` answer for the root listing used by
`listServers`. -/

structure S3Env where
  cfg : S3Config
  store : Store
  listFails : Str → Bool
  commonPrefixes : List Str
  rootListFails : Bool

/-- `listFiles`: rethrows (wrapped) when the provider call fails,
otherwise lists the tenant's ".mp3" objects. -/
def listFiles (env : S3Env) (serverId : Str) : Except S3Error (List AudioFile) :=
  if env.listFails serverId then .error .listFailed
  else .ok (listFilesOk env.cfg env.store serverId)

/-- `getBucketStats`: derived from `listFiles`; any listing error is
caught and replaced by zero counts (the method never throws). -/
def getBucketStats (env : S3Env) (serverId : Str) : Nat × Nat :=
  match listFiles env serverId with
  | .ok files => (files.length, files.foldl (fun sum f => sum + f.size) 0)
  | .error _ => (0, 0)

/-- JavaScript's `replace('/', '')`: remove the first occurrence of a
character. -/
def removeFirst : Str → Char → Str
  | [], _ => []
  | x :: xs, c => if x = c then xs else removeFirst xs c |> (x :: ·)

/-- `listServers`: extract the tenant id from each common prefix
(`audio/123/` becomes `123`); each listed prefix starts with the base
folder, so the source's replace-first is dropping it. Any error yields
the empty list. -/
def listServers (env : S3Env) : List Str :=
  if env.rootListFails then []
  else (env.commonPrefixes.map
      (fun p => removeFirst (p.drop env.cfg.baseFolderPrefix.length) '/')).filter
    (fun serverId => !(serverId.isEmpty))

/-- `getTotalStats`: iterate `listServers`, summing each tenant's
`getBucketStats`. -/
def getTotalStats (env : S3Env) : Nat × Nat × Nat :=
  let servers := listServers env
  let acc := servers.foldl (fun acc serverId =>
    (acc.1 + (getBucketStats env serverId).1, acc.2 + (getBucketStats env serverId).2)) (0, 0)
  (servers.length, acc.1, acc.2)

theorem foldl_stats_eq (f g : Str → Nat) :
    ∀ (l : List Str) (a b : Nat),
      l.foldl (fun acc sid => (acc.1 + f sid, acc.2 + g sid)) (a, b) =
        (a + (l.map f).sum, b + (l.map g).sum) := by
  intro l
  induction l with
  | nil => intro a b; simp
  | cons x xs ih =>
    intro a b
    rw [List.foldl_cons, ih]
    simp [Nat.add_assoc]

/-- C10: `getBucketStats` never throws — its very type is total, a tenant
whose listing fails yields zero counts — and `getTotalStats` is the sum
of the per-tenant `getBucketStats`, so a failing tenant silently
contributes zero files and zero bytes. -/
theorem getBucketStats_never_throws :
    (∀ env serverId, env.listFails serverId = true →
        getBucketStats env serverId = (0, 0)) ∧
    (∀ env, getTotalStats env =
      ((listServers env).length,
        ((listServers env).map (fun sid => (getBucketStats env sid).1)).sum,
        ((listServers env).map (fun sid => (getBucketStats env sid).2)).sum)) := by
  constructor
  · intro env serverId h
    unfold getBucketStats listFiles
    rw [h]
    rfl
  · intro env
    simp only [getTotalStats]
    rw [foldl_stats_eq]
    simp

/-- Witness for C10 at a tenant "bad" whose listing fails. -/
theorem getBucketStats_never_throws_witness :
    S3Env.listFails
        ⟨⟨ str "cdn", str "audio/"⟩, [], fun sid => sid == str "bad", [], false⟩
        (str "bad") = true ∧
    getBucketStats
        ⟨⟨ str "cdn", str "audio/"⟩, [], fun sid => sid == str "bad", [], false⟩
        (str "bad") = (0, 0) :=
  ⟨by decide,
    getBucketStats_never_throws.1
      ⟨⟨ str "cdn", str "audio/"⟩, [], fun sid => sid == str "bad", [], false⟩
      (str "bad") (by decide)⟩

/-! ## Cleanup (`cleanupFiles`) -/

/-- The loop body of `cleanupFiles`: delete every listed file smaller
than 1024 bytes, collecting the deleted names. -/
def cleanupLoop (cfg : S3Config) (serverId : Str) : List AudioFile → Store → List Str × Store
  | [], st => ([], st)
  | f :: fs, st =>
      if f.size < 1024 then
        let st2 := deleteFile cfg st f.name serverId
        let res := cleanupLoop cfg serverId fs st2
        (f.name :: res.1, res.2)
      else cleanupLoop cfg serverId fs st

/-- `cleanupFiles`: list the tenant's files fresh, delete the sub-1KB
ones, return the removed names; a listing failure is rethrown. -/
def cleanupFiles (env : S3Env) (serverId : Str) : Except S3Error (List Str × Store) :=
  match listFiles env serverId with
  | .error e => .error e
  | .ok files => .ok (cleanupLoop env.cfg serverId files env.store)

/-- Sequential single-key deletions. -/
def removeKeys (st : Store) (ks : List Str) : Store := ks.foldl removeKey st

theorem cleanupLoop_eq (cfg : S3Config) (serverId : Str) :
    ∀ (fs : List AudioFile) (st : Store),
      cleanupLoop cfg serverId fs st =
        ((fs.filter (fun f => decide (f.size < 1024))).map (fun f => f.name),
          removeKeys st ((fs.filter (fun f => decide (f.size < 1024))).map
            (fun f => objectKey cfg serverId f.name))) := by
  intro fs
  induction fs with
  | nil => intro st; rfl
  | cons f fs ih =>
    intro st
    by_cases hs : f.size < 1024
    · simp only [cleanupLoop, if_pos hs, ih]
      rw [List.filter_cons_of_pos (by simpa using hs)]
      rfl
    · simp only [cleanupLoop, if_neg hs, ih]
      rw [List.filter_cons_of_neg (by simpa using hs)]

theorem removeKeys_filter :
    ∀ (ks : List Str) (st : Store),
      removeKeys st ks = st.filter (fun o => !(ks.any (fun k => o.key == k))) := by
  intro ks
  induction ks with
  | nil => intro st; simp [removeKeys]
  | cons k ks ih =>
    intro st
    have h1 : removeKeys st (k :: ks) = removeKeys (removeKey st k) ks := rfl
    rw [h1, ih]
    unfold removeKey
    rw [List.filter_filter]
    apply List.filter_congr
    intro o _
    cases h2 : (o.key == k) <;> cases h3 : ks.any (fun k2 => o.key == k2) <;>
      simp [h2, h3]

/-- Every key stored under the tenant's folder decomposes as the folder
followed by a separator-free ".mp3" name: the invariant all writes
through `uploadFile`/`renameFile` maintain (they only store sanitized
names). -/
def tenantKeysClean (cfg : S3Config) (serverId : Str) (st : Store) : Prop :=
  ∀ o ∈ st, getServerFolderPrefix cfg serverId <+: o.key →
    (∀ c ∈ o.key.drop (getServerFolderPrefix cfg serverId).length, isPathSep c = false) ∧
    mp3Ext <:+ o.key.drop (getServerFolderPrefix cfg serverId).length

/-- A key denotes at most one stored object. -/
def keysInjective (st : Store) : Prop :=
  ∀ o1 ∈ st, ∀ o2 ∈ st, o1.key = o2.key → o1 = o2

theorem listed_key_eq (cfg : S3Config) (serverId : Str) (st : Store)
    (hclean : tenantKeysClean cfg serverId st) {o : S3Object} (ho : o ∈ st)
    (hp : (getServerFolderPrefix cfg serverId).isPrefixOf o.key = true) :
    objectKey cfg serverId (toAudioFile cfg serverId o).name = o.key := by
  have hpre := List.isPrefixOf_iff_prefix.mp hp
  rcases hclean o ho hpre with ⟨hsep, hmp3⟩
  unfold objectKey toAudioFile
  rw [sanitize_fix_of_clean _ hsep hmp3]
  exact List.prefix_iff_eq_append.mp hpre

theorem small_key_mem (cfg : S3Config) (serverId : Str) (st : Store)
    (hclean : tenantKeysClean cfg serverId st) (hinj : keysInjective st)
    (o : S3Object) (ho : o ∈ st) :
    (((listFilesOk cfg st serverId).filter (fun f => decide (f.size < 1024))).map
        (fun f => objectKey cfg serverId f.name)).any (fun k => o.key == k) =
      ((getServerFolderPrefix cfg serverId).isPrefixOf o.key &&
        (mp3Ext.isSuffixOf o.key && decide (o.size < 1024))) := by
  rw [Bool.eq_iff_iff, List.any_eq_true]
  constructor
  · rintro ⟨k, hk, hbeq⟩
    rw [List.mem_map] at hk
    rcases hk with ⟨f, hf, rfl⟩
    rw [List.mem_filter] at hf
    rcases hf with ⟨hfl, hsmall⟩
    rcases mem_listFilesOk.mp hfl with ⟨o2, ho2, hp2, hs2, hfo⟩
    have hkey2 : objectKey cfg serverId f.name = o2.key := by
      rw [← hfo]
      exact listed_key_eq cfg serverId st hclean ho2 hp2
    rw [beq_iff_eq] at hbeq
    have heq : o = o2 := hinj o ho o2 ho2 (by rw [hbeq, hkey2])
    have hsize : f.size = o2.size := by rw [← hfo]; rfl
    rw [Bool.and_eq_true, Bool.and_eq_true]
    refine ⟨?_, ?_, ?_⟩
    · rw [heq]; exact hp2
    · rw [heq]; exact hs2
    · rw [heq]
      have := hsize ▸ hsmall
      simpa using this
  · intro hconj
    rw [Bool.and_eq_true, Bool.and_eq_true] at hconj
    rcases hconj with ⟨hp, hs, hsmall⟩
    have hfl : toAudioFile cfg serverId o ∈ listFilesOk cfg st serverId :=
      mem_listFilesOk.mpr ⟨o, ho, hp, hs, rfl⟩
    refine ⟨objectKey cfg serverId (toAudioFile cfg serverId o).name, ?_, ?_⟩
    · rw [List.mem_map]
      refine ⟨toAudioFile cfg serverId o, ?_, rfl⟩
      rw [List.mem_filter]
      exact ⟨hfl, by simpa using hsmall⟩
    · rw [listed_key_eq cfg serverId st hclean ho hp]
      exact beq_self_eq_true o.key

/-- C6: cleanup threshold. With the store well-formed for the tenant
(sanitized unique keys) and the listing reachable, `cleanupFiles` returns
exactly the names of the listed objects strictly smaller than 1024 bytes,
and the resulting store keeps exactly the objects that are not a listed
sub-1024-byte object of this tenant — every object of 1024 bytes or more
survives. -/
theorem cleanup_threshold (env : S3Env) (serverId : Str)
    (hclean : tenantKeysClean env.cfg serverId env.store)
    (hinj : keysInjective env.store)
    (hfail : env.listFails serverId = false) :
    cleanupFiles env serverId = .ok
      (((listFilesOk env.cfg env.store serverId).filter
          (fun f => decide (f.size < 1024))).map (fun f => f.name),
        env.store.filter (fun o =>
          !((getServerFolderPrefix env.cfg serverId).isPrefixOf o.key &&
            (mp3Ext.isSuffixOf o.key && decide (o.size < 1024))))) := by
  unfold cleanupFiles listFiles
  rw [hfail]
  simp only [Bool.false_eq_true, if_false]
  rw [cleanupLoop_eq, removeKeys_filter]
  congr 1
  congr 1
  apply List.filter_congr
  intro o ho
  rw [small_key_mem env.cfg serverId env.store hclean hinj o ho]

/-- Concrete cleanup scenario of the specification: five objects of sizes
0, 512, 1023, 1024 and 2048 bytes for tenant "g". -/
def cleanupEnv0 : S3Env :=
  ⟨⟨ str "cdn", str "audio/"⟩,
    [⟨ str "audio/g/a.mp3", 0, 1⟩, ⟨ str "audio/g/b.mp3", 512, 1⟩,
      ⟨ str "audio/g/c.mp3", 1023, 1⟩, ⟨ str "audio/g/d.mp3", 1024, 1⟩,
      ⟨ str "audio/g/e.mp3", 2048, 1⟩],
    fun _ => false, [], false⟩

/-- Witness for C6 on the specification's five-object scenario. -/
theorem cleanup_threshold_witness :
    tenantKeysClean cleanupEnv0.cfg (str "g") cleanupEnv0.store ∧
    keysInjective cleanupEnv0.store ∧
    cleanupEnv0.listFails (str "g") = false ∧
    cleanupFiles cleanupEnv0 (str "g") = .ok
      (((listFilesOk cleanupEnv0.cfg cleanupEnv0.store (str "g")).filter
          (fun f => decide (f.size < 1024))).map (fun f => f.name),
        cleanupEnv0.store.filter (fun o =>
          !((getServerFolderPrefix cleanupEnv0.cfg (str "g")).isPrefixOf o.key &&
            (mp3Ext.isSuffixOf o.key && decide (o.size < 1024))))) :=
  ⟨by unfold tenantKeysClean; decide, by unfold keysInjective; decide, rfl,
    cleanup_threshold cleanupEnv0 (str "g")
      (by unfold tenantKeysClean; decide) (by unfold keysInjective; decide) rfl⟩

/-! ## The settings store (src/utils/db.ts)

The database is modelled as the `server_settings` table plus a `failing`
flag: when `failing` is set every query the pool runs throws, which is
what the catch blocks of the source handle. `now` models `NOW()`. The
source's column `prefix` is the field `cmdPrefix` here; the literal 0.5
is the rational 1/2. -/

structure ServerSettings where
  guildId : Str
  cmdPrefix : Str
  defaultVolume : ℚ
  createdAt : Nat
  updatedAt : Nat
deriving DecidableEq

structure DbState where
  settingsRows : List ServerSettings
  failing : Bool
  now : Nat
deriving DecidableEq

inductive DbError where
  | queryFailed
deriving DecidableEq

/-- The `DEFAULT_PREFIX` constant of DatabaseService. -/
def DEFAULT_PREFIX : Str := str "!"

/-- The `SELECT * FROM server_settings WHERE guild_id = $1` lookup. -/
def findRow (db : DbState) (guildId : Str) : Option ServerSettings :=
  db.settingsRows.find? (fun r => r.guildId == guildId)

/-- The in-memory default settings object built in the catch branch (and
the values inserted by `createDefaultServerSettings`). -/
def defaultSettings (guildId : Str) (now : Nat) : ServerSettings :=
  ⟨guildId, DEFAULT_PREFIX, 1/2, now, now⟩

/-- `createDefaultServerSettings`: insert a row with default prefix and
volume and return it. -/
def createDefaultServerSettings (db : DbState) (guildId : Str) :
    ServerSettings × DbState :=
  let row := defaultSettings guildId db.now
  (row, { db with settingsRows := row :: db.settingsRows })

/-- `getServerSettings`: read the row; create the default row when
absent; on any query failure return an in-memory default object without
persisting anything. The return type is total: no error propagates. -/
def getServerSettings (db : DbState) (guildId : Str) : ServerSettings × DbState :=
  if db.failing then
    (defaultSettings guildId db.now, db)
  else
    match findRow db guildId with
    | some row => (row, db)
    | none => createDefaultServerSettings db guildId

/-- JavaScript `Math.min` on rationals. -/
def jsMin (a b : ℚ) : ℚ := if a ≤ b then a else b

/-- JavaScript `Math.max` on rationals. -/
def jsMax (a b : ℚ) : ℚ := if a ≤ b then b else a

/-- `Math.max(0, Math.min(1, volume))` of `updateServerVolume`. -/
def safeVolumeOf (volume : ℚ) : ℚ := jsMax 0 (jsMin 1 volume)

/-- `Math.max(0, Math.min(1, default_volume / 100))` of
`updateServerSettings` (percentage to decimal). -/
def settingsSafeVolume (v : ℚ) : ℚ := jsMax 0 (jsMin 1 (v / 100))

/-- The in-memory `setVolume` of the bot context: clamp to [0,1]. -/
def setVolume (volume : ℚ) : ℚ := jsMax 0 (jsMin 1 volume)

/-- The `UPDATE ... WHERE guild_id = $2` row replacement. -/
def replaceRow (db : DbState) (guildId : Str) (row : ServerSettings) : DbState :=
  { db with settingsRows :=
      (db.settingsRows.map (fun r => if r.guildId == guildId then row else r)) }

/-- `updateServerVolume`: clamp to [0,1], update the row, or insert a new
row with the clamped volume when none exists; query failures are
rethrown. -/
def updateServerVolume (db : DbState) (guildId : Str) (volume : ℚ) :
    Except DbError (ServerSettings × DbState) :=
  if db.failing then .error .queryFailed
  else
    let safeVolume := safeVolumeOf volume
    match findRow db guildId with
    | some row =>
        let row2 := { row with defaultVolume := safeVolume, updatedAt := db.now }
        .ok (row2, replaceRow db guildId row2)
    | none =>
        let row := { defaultSettings guildId db.now with defaultVolume := safeVolume }
        .ok (row, { db with settingsRows := row :: db.settingsRows })

/-- The per-field update of `updateServerSettings`: a provided volume is
converted from the 0–100 scale and clamped, a provided prefix replaces
the stored one, `updated_at` is set to now. -/
def applySettings (row : ServerSettings) (default_volume : Option ℚ)
    ( custom_prefix : Option Str) (now : Nat) : ServerSettings :=
  let row1 := match default_volume with
    | some v => { row with defaultVolume := settingsSafeVolume v }
    | none => row
  let row2 := match custom_prefix with
    | some p => { row1 with cmdPrefix := p }
    | none => row1
  { row2 with updatedAt := now }

/-- `updateServerSettings`: no provided field returns false; otherwise
upsert and return true; errors are caught and return false. -/
def updateServerSettings (db : DbState) (guildId : Str) (default_volume : Option ℚ)
    ( custom_prefix : Option Str) : Bool × DbState :=
  match default_volume, custom_prefix with
  | none, none => (false, db)
  | dv, cp =>
      if db.failing then (false, db)
      else match findRow db guildId with
      | some row => (true, replaceRow db guildId (applySettings row dv cp db.now))
      | none =>
          (true, { db with settingsRows :=
            (applySettings (defaultSettings guildId db.now) dv cp db.now :: db.settingsRows) })

/-- C3: settings create-on-read. For a tenant with no settings row and a
reachable database, `getServerSettings` returns prefix "!" and volume 1/2
and persists exactly one row for the tenant; a second call returns the
same row and the same table (no second default row). -/
theorem settings_create_on_read (db : DbState) (guildId : Str)
    (hfail : db.failing = false) (habsent : findRow db guildId = none) :
    (getServerSettings db guildId).1.cmdPrefix = DEFAULT_PREFIX ∧
    (getServerSettings db guildId).1.defaultVolume = 1/2 ∧
    ((getServerSettings db guildId).2.settingsRows.filter
        (fun r => r.guildId == guildId)).length = 1 ∧
    getServerSettings (getServerSettings db guildId).2 guildId =
      ((getServerSettings db guildId).1, (getServerSettings db guildId).2) := by
  obtain ⟨rows, failing, now2⟩ := db
  simp only at hfail
  subst hfail
  have h1 : getServerSettings ⟨rows, false, now2⟩ guildId =
      (defaultSettings guildId now2,
        ⟨defaultSettings guildId now2 :: rows, false, now2⟩) := by
    unfold getServerSettings
    rw [habsent]
    rfl
  have hempty : rows.filter (fun r => r.guildId == guildId) = [] := by
    rw [List.filter_eq_nil_iff]
    intro r hr
    unfold findRow at habsent
    rw [List.find?_eq_none] at habsent
    exact habsent r hr
  rw [h1]
  refine ⟨rfl, rfl, ?_, ?_⟩
  · show (List.filter _ (defaultSettings guildId now2 :: rows)).length = 1
    rw [List.filter_cons_of_pos (by simp [defaultSettings]), hempty]
    rfl
  · unfold getServerSettings
    unfold findRow
    rw [List.find?_cons_of_pos _ (by simp [defaultSettings])]
    rfl

/-- Witness for C3 on an empty table and tenant "g1". -/
theorem settings_create_on_read_witness :
    (⟨[], false, 0⟩ : DbState).failing = false ∧
    findRow ⟨[], false, 0⟩ (str "g1") = none ∧
    ((getServerSettings ⟨[], false, 0⟩ (str "g1")).1.cmdPrefix = DEFAULT_PREFIX ∧
      (getServerSettings ⟨[], false, 0⟩ (str "g1")).1.defaultVolume = 1/2 ∧
      ((getServerSettings ⟨[], false, 0⟩ (str "g1")).2.settingsRows.filter
          (fun r => r.guildId == str "g1")).length = 1 ∧
      getServerSettings (getServerSettings ⟨[], false, 0⟩ (str "g1")).2 (str "g1") =
        ((getServerSettings ⟨[], false, 0⟩ (str "g1")).1,
          (getServerSettings ⟨[], false, 0⟩ (str "g1")).2)) :=
  ⟨rfl, rfl, settings_create_on_read ⟨[], false, 0⟩ (str "g1") rfl rfl⟩

/-- C8: settings read failure. When the database is unreachable,
`getServerSettings` returns the in-memory default object — prefix "!",
volume 1/2, fresh timestamps — and leaves the table untouched (nothing is
persisted); its total return type propagates no error to the caller. -/
theorem settings_read_failure (db : DbState) (guildId : Str) (hfail : db.failing = true) :
    getServerSettings db guildId = (defaultSettings guildId db.now, db) ∧
    (defaultSettings guildId db.now).cmdPrefix = DEFAULT_PREFIX ∧
    (defaultSettings guildId db.now).defaultVolume = 1/2 := by
  refine ⟨?_, rfl, rfl⟩
  unfold getServerSettings
  rw [hfail]
  rfl

/-- Witness for C8 on an unreachable database. -/
theorem settings_read_failure_witness :
    (⟨[], true, 3⟩ : DbState).failing = true ∧
    (getServerSettings ⟨[], true, 3⟩ (str "g1") =
        (defaultSettings (str "g1") 3, ⟨[], true, 3⟩) ∧
      (defaultSettings (str "g1") 3).cmdPrefix = DEFAULT_PREFIX ∧
      (defaultSettings (str "g1") 3).defaultVolume = 1/2) :=
  ⟨rfl, settings_read_failure ⟨[], true, 3⟩ (str "g1") rfl⟩

theorem jsClamp01 (x : ℚ) : 0 ≤ jsMax 0 (jsMin 1 x) ∧ jsMax 0 (jsMin 1 x) ≤ 1 := by
  unfold jsMax jsMin
  split_ifs with h1 h2 h3 <;> constructor <;> linarith

theorem updateServerVolume_ok {db : DbState} {guildId : Str} {v : ℚ}
    {row : ServerSettings} {db2 : DbState}
    (h : updateServerVolume db guildId v = .ok (row, db2)) :
    row.defaultVolume = safeVolumeOf v ∧ row ∈ db2.settingsRows := by
  simp only [updateServerVolume] at h
  by_cases hf : db.failing
  · rw [if_pos hf] at h
    cases h
  · rw [if_neg hf] at h
    rcases hr : findRow db guildId with _ | r
    · rw [hr] at h
      cases h
      refine ⟨rfl, ?_⟩
      exact List.mem_cons_self _ _
    · rw [hr] at h
      cases h
      refine ⟨rfl, ?_⟩
      show _ ∈ (replaceRow db guildId _).settingsRows
      unfold replaceRow
      unfold findRow at hr
      have hrmem : r ∈ db.settingsRows := List.mem_of_find?_eq_some hr
      have hrp := List.find?_some hr
      rw [List.mem_map]
      exact ⟨r, hrmem, by rw [if_pos hrp]⟩

/-- C9: volume clamping. Every volume update path stores a fraction in
[0,1]: `updateServerVolume` clamps its fraction argument before
persisting (and the stored row carries the clamped value);
`updateServerSettings` divides its 0–100 scale input by 100 and clamps,
with -10 stored as 0 and 150 stored as 1; and the in-memory `setVolume`
clamps its argument. -/
theorem volume_clamping :
    (∀ db guildId v row db2,
        updateServerVolume db guildId v = .ok (row, db2) →
        0 ≤ row.defaultVolume ∧ row.defaultVolume ≤ 1 ∧ row ∈ db2.settingsRows) ∧
    (∀ v, 0 ≤ settingsSafeVolume v ∧ settingsSafeVolume v ≤ 1) ∧
    settingsSafeVolume (-10) = 0 ∧ settingsSafeVolume 150 = 1 ∧
    (∀ v, 0 ≤ setVolume v ∧ setVolume v ≤ 1) := by
  refine ⟨?_, ?_, ?_, ?_, ?_⟩
  · intro db guildId v row db2 h
    rcases updateServerVolume_ok h with ⟨hvol, hmem⟩
    have hc := jsClamp01 v
    rw [hvol]
    exact ⟨hc.1, hc.2, hmem⟩
  · intro v
    exact jsClamp01 (v / 100)
  · unfold settingsSafeVolume jsMax jsMin
    norm_num
  · unfold settingsSafeVolume jsMax jsMin
    norm_num
  · intro v
    exact jsClamp01 v

/-- Witness for C9: updating tenant "g" on an empty table with the
out-of-range fraction 5. -/
theorem volume_clamping_witness :
    0 ≤ ({ defaultSettings (str "g") 0 with defaultVolume := safeVolumeOf 5 }
        : ServerSettings).defaultVolume ∧
    ({ defaultSettings (str "g") 0 with defaultVolume := safeVolumeOf 5 }
        : ServerSettings).defaultVolume ≤ 1 ∧
    ({ defaultSettings (str "g") 0 with defaultVolume := safeVolumeOf 5 }
        : ServerSettings) ∈
      (⟨[{ defaultSettings (str "g") 0 with defaultVolume := safeVolumeOf 5 }], false, 0⟩
        : DbState).settingsRows :=
  volume_clamping.1 ⟨[], false, 0⟩ (str "g") 5
    { defaultSettings (str "g") 0 with defaultVolume := safeVolumeOf 5 }
    ⟨[{ defaultSettings (str "g") 0 with defaultVolume := safeVolumeOf 5 }], false, 0⟩
    rfl

/-! ## The playback coordinator (`playAudio`, src/commands/audio/song.ts)

The control flow of `playAudio` is embedded over an environment of
outcomes of its external calls: whether the caller is in a voice channel,
whether the S3 existence check succeeds and finds the file, whether
`entersState` reaches Ready within the 30s timeout, whether the settings
read succeeds, whether the S3 stream opens (else the public-URL fallback
resource is used), and whether the remaining steps of the try block
succeed. The outcome records what the invocation did: whether an error
message was surfaced, whether `setConnection` stored a freshly opened
connection, whether `connection.destroy()` was called on this path,
whether playback started, the volume applied to the audio resource, and
the bot context's current volume afterwards. -/

structure PlayEnv where
  userInVoice : Bool
  fileCheckOk : Bool
  fileFound : Bool
  connectReady : Bool
  settingsOk : Bool
  serverDefaultVolume : ℚ
  streamOk : Bool
  playbackOk : Bool
deriving DecidableEq

structure PlayOutcome where
  replyError : Bool
  connectionSet : Bool
  connectionDestroyed : Bool
  played : Bool
  appliedVolume : Option ℚ
  currentVolumeAfter : ℚ
  usedUrlFallback : Bool
deriving DecidableEq

/-- `playAudio`: the guard clauses (no voice channel, storage check
failure, file not found), then the try block — join voice channel,
`setConnection`, wait for Ready, pick the playback volume (server default
only when the current volume still equals the 0.5 startup default),
stream (or URL fallback), play. The catch block surfaces an error message
chosen by matching the message text; it never calls
`connection.destroy()`. -/
def playAudio (env : PlayEnv) (currentVolume : ℚ) (guildId : Str) : PlayOutcome :=
  if !env.userInVoice then
    ⟨true, false, false, false, none, currentVolume, false⟩
  else if !env.fileCheckOk then
    ⟨true, false, false, false, none, currentVolume, false⟩
  else if !env.fileFound then
    ⟨true, false, false, false, none, currentVolume, false⟩
  else if !env.connectReady then
    ⟨true, true, false, false, none, currentVolume, false⟩
  else
    let volumes :=
      if guildId ≠ str "global" then
        if env.settingsOk then
          if currentVolume = 1/2 then
            (env.serverDefaultVolume, setVolume env.serverDefaultVolume)
          else (currentVolume, currentVolume)
        else (currentVolume, currentVolume)
      else (currentVolume, currentVolume)
    if !env.playbackOk then
      ⟨true, true, false, false, none, volumes.2, !env.streamOk⟩
    else
      ⟨false, true, false, true, some volumes.1, volumes.2, !env.streamOk⟩

/-- A play invocation whose voice connection opens but times out before
Ready: `entersState` throws inside the try block. -/
def playEnvTimeout : PlayEnv := ⟨true, true, true, false, true, 1/2, true, true⟩

/-- Counterexample for C1: on a connection timeout the catch block
surfaces an error, but the freshly opened (and stored) voice connection
is not destroyed. -/
theorem play_exception_destroy_counterexample :
    playEnvTimeout.connectReady = false ∧
    (playAudio playEnvTimeout (1/2) (str "g")).connectionSet = true ∧
    (playAudio playEnvTimeout (1/2) (str "g")).replyError = true ∧
    (playAudio playEnvTimeout (1/2) (str "g")).connectionDestroyed = false :=
  ⟨rfl, rfl, rfl, rfl⟩

/-- C1 (amended): on any play-path exception after the voice connection
was opened — connection timeout, or a failure later in the try block — a
user-facing error is surfaced, but the voice connection is NOT destroyed:
it stays registered in the bot context until an explicit stop or
disconnect. -/
theorem play_exception_surfaces_error (env : PlayEnv) (currentVolume : ℚ) (guildId : Str)
    (h1 : env.userInVoice = true) (h2 : env.fileCheckOk = true) (h3 : env.fileFound = true)
    (h4 : env.connectReady = false ∨ env.playbackOk = false) :
    (playAudio env currentVolume guildId).replyError = true ∧
    (playAudio env currentVolume guildId).connectionSet = true ∧
    (playAudio env currentVolume guildId).connectionDestroyed = false := by
  rcases h4 with h4 | h4
  · simp [playAudio, h1, h2, h3, h4]
  · by_cases h5 : env.connectReady = true
    · simp [playAudio, h1, h2, h3, h5, h4]
    · rw [Bool.not_eq_true] at h5
      simp [playAudio, h1, h2, h3, h5]

/-- Witness for C1 (amended) at the timeout environment. -/
theorem play_exception_surfaces_error_witness :
    playEnvTimeout.userInVoice = true ∧ playEnvTimeout.fileCheckOk = true ∧
    playEnvTimeout.fileFound = true ∧
    (playEnvTimeout.connectReady = false ∨ playEnvTimeout.playbackOk = false) ∧
    ((playAudio playEnvTimeout (1/2) (str "g")).replyError = true ∧
      (playAudio playEnvTimeout (1/2) (str "g")).connectionSet = true ∧
      (playAudio playEnvTimeout (1/2) (str "g")).connectionDestroyed = false) :=
  ⟨rfl, rfl, rfl, Or.inl rfl,
    play_exception_surfaces_error playEnvTimeout (1/2) (str "g") rfl rfl rfl (Or.inl rfl)⟩

/-- The bot context's current volume after a sequence of manual volume
adjustments in one runtime lifetime: the startup default is 0.5, each
adjustment stores its clamped value. -/
def currentAfter (events : List ℚ) : ℚ :=
  events.foldl (fun _ v => setVolume v) (1/2)

/-- A successful play in a guild whose stored server default volume is
0.9. -/
def playEnvManualHalf : PlayEnv := ⟨true, true, true, true, true, 9/10, true, true⟩

/-- Counterexample for C7: after a manual adjustment to exactly 0.5, the
next play applies the server default 0.9, not the manually set 0.5 — the
code compares the current volume with the hardcoded startup default
instead of tracking whether an adjustment happened. -/
theorem volume_heuristic_counterexample :
    currentAfter [ 1/2 ] = 1/2 ∧
    (playAudio playEnvManualHalf (currentAfter [ 1/2 ]) (str "g")).appliedVolume =
      some (9/10) ∧
    (9 : ℚ)/10 ≠ 1/2 := by
  have hca : currentAfter [ 1/2 ] = 1/2 := by
    unfold currentAfter setVolume jsMax jsMin
    norm_num
  have hg : str "g" ≠ str "global" := by decide
  refine ⟨hca, ?_, by norm_num⟩
  rw [hca]
  simp [playAudio, playEnvManualHalf, hg]

/-- C7 (amended): on a successful play in a guild with a reachable
settings store, the server default volume is applied exactly when the
session's current volume equals the hardcoded 0.5 startup default; any
other current volume is applied unchanged. A manual adjustment back to
exactly 0.5 is indistinguishable from "never adjusted" and is overridden
by the server default. -/
theorem volume_default_heuristic (env : PlayEnv) (currentVolume : ℚ) (guildId : Str)
    (h1 : env.userInVoice = true) (h2 : env.fileCheckOk = true) (h3 : env.fileFound = true)
    (h4 : env.connectReady = true) (h5 : env.settingsOk = true) (h6 : env.playbackOk = true)
    (h7 : guildId ≠ str "global") :
    (playAudio env currentVolume guildId).appliedVolume =
      some (if currentVolume = 1/2 then env.serverDefaultVolume else currentVolume) := by
  by_cases hv : currentVolume = 1/2
  · simp [playAudio, h1, h2, h3, h4, h5, h6, h7, hv]
  · have hv2 : currentVolume ≠ 2⁻¹ := by
      intro he
      exact hv (by rw [he]; norm_num)
    simp [playAudio, h1, h2, h3, h4, h5, h6, h7, hv2]

/-- Witness for C7 (amended) at a current volume of exactly 0.5 and a
server default of 0.75. -/
theorem volume_default_heuristic_witness :
    (playAudio ⟨true, true, true, true, true, 3/4, true, true⟩ (1/2) (str "g")).appliedVolume =
      some (if (1/2 : ℚ) = 1/2
        then (⟨true, true, true, true, true, 3/4, true, true⟩ : PlayEnv).serverDefaultVolume
        else (1/2 : ℚ)) :=
  volume_default_heuristic ⟨true, true, true, true, true, 3/4, true, true⟩ (1/2) (str "g")
    rfl rfl rfl rfl rfl rfl (by decide)

end Soundboard
